import Mathlib

/-!
Shallow embedding of the expense-tracking bot
(`src/telegram-expense-tracker/expense_bot.py`).

Modelling conventions:
* Python strings are `List Char`; Python floats are exact rationals `ℚ`.
* The Google-Sheets ledger is its list of data rows (the header row is
  implicit); sheet row numbers are `index + 2` as in the source.
* Remote-call failures (network, credentials) lie outside every claim
  checked here, so ledger calls always succeed in the model.
* The CPython `set` of processed message ids is carried as a
  duplicate-free list of `Nat` (its insertion order; only membership and
  size are meaningful). CPython guarantees no iteration order for sets,
  so the `list(set)` materialisation used by the eviction step is an
  explicit oracle parameter `ord`, universally quantified in the
  theorems; concrete runs use `idOrd`, the order CPython actually
  exhibits for the dense small integer ids of the fixtures (integers
  hash to themselves).
* Side effects (sheet writes, outbound replies) are reified as an `Eff`
  trace returned next to the new state.
-/

namespace ExpenseBot

/-- Python `str.lower`, character by character (the bot's keywords are
ASCII, where `Char.toLower` and Python agree). -/
def pyLower (s : List Char) : List Char := s.map Char.toLower

/-- Python `str.upper`, character by character. -/
def pyUpper (s : List Char) : List Char := s.map Char.toUpper

/-- Python `str.strip`: drop leading and trailing whitespace. -/
def pyStrip (s : List Char) : List Char :=
  ((s.dropWhile Char.isWhitespace).reverse.dropWhile Char.isWhitespace).reverse

/-- Whether `p` is a prefix of the second list. -/
def startsWith : List Char → List Char → Bool
  | [], _ => true
  | _ :: _, [] => false
  | a :: as, b :: bs => a == b && startsWith as bs

/-- Python substring containment `p in t`. -/
def isSubstr (p : List Char) : List Char → Bool
  | [] => startsWith p []
  | c :: rest => startsWith p (c :: rest) || isSubstr p rest

/-- Numeric value of a run of decimal digit characters. -/
def digitsVal (ds : List Char) : Nat :=
  ds.foldl (fun a c => 10 * a + (c.toNat - '0'.toNat)) 0

/-- Characters removed by `extract_amount` before scanning for numbers:
the regex class of `re.sub` at `expense_bot.py:68` as committed. The
file is double-encoded, so the class literally holds the characters
`‚` (U+201A), `Ç` (U+00C7), `π` (U+03C0), `$`, `¨` (U+00A8),
`¬` (U+00AC), `£` (U+00A3) and the comma — the re-encoded remnants of
an intended `₹$€£,`; the rupee and euro signs themselves are not in the
class. Duplicated members of the class are kept as written. -/
def currencyChars : List Char := ['‚', 'Ç', 'π', '$', '‚', 'Ç', '¨', '¬', '£', ',']

/-- The `re.sub(r'[‚Çπ$‚Ç¨¬£,]', '', text)` cleaning step of
`extract_amount`. -/
def stripCurrency (s : List Char) : List Char :=
  s.filter (fun c => !currencyChars.contains c)

/-- First match of the regex `\d+\.?\d*` in the text (the head of
`re.findall` at `expense_bot.py:69`): at the leftmost digit take the
maximal digit run, one optional decimal point, then a maximal digit run. -/
def firstNumberToken : List Char → Option (List Char)
  | [] => none
  | c :: cs =>
    if c.isDigit then
      some (((c :: cs).takeWhile Char.isDigit) ++
        (match (c :: cs).dropWhile Char.isDigit with
         | '.' :: rest2 => '.' :: rest2.takeWhile Char.isDigit
         | _ => []))
    else firstNumberToken cs

/-- Value of a matched numeric token, Python `float` of the token text
(idealised as the exact rational `intPart + frac / 10 ^ frac.length`,
built with `mkRat` so that it evaluates by kernel reduction). -/
def tokenValue (tok : List Char) : ℚ :=
  let intPart := tok.takeWhile Char.isDigit
  let frac := (tok.dropWhile Char.isDigit).drop 1
  mkRat (digitsVal intPart * 10 ^ frac.length + digitsVal frac) (10 ^ frac.length)

/-- Embedding of `extract_amount` (`expense_bot.py:65-73`). -/
def extract_amount (text : List Char) : Option ℚ :=
  (firstNumberToken (stripCurrency text)).map tokenValue

/-- Modelled from the spec's words, for comparison only: the character
class the spec describes ("strips currency symbols and thousands
separators"), holding the actual rupee, dollar, euro and pound signs
plus the comma. The committed code's class (`currencyChars`) differs. -/
def specCurrencyChars : List Char := ['₹', '$', '€', '£', ',']

/-- Modelled from the spec's words, for comparison only: stripping with
the spec's character class. -/
def specStripCurrency (s : List Char) : List Char :=
  s.filter (fun c => !specCurrencyChars.contains c)

/-- Modelled from the spec's words, for comparison only: the extractor
as the claim describes it, stripping the real currency symbols before
taking the first numeric token. -/
def spec_extract_amount (text : List Char) : Option ℚ :=
  (firstNumberToken (specStripCurrency text)).map tokenValue

/-- Embedding of `CATEGORY_KEYWORDS` (`expense_bot.py:39-47`), an
ordered association list because Python dicts iterate in insertion
order. -/
def CATEGORY_KEYWORDS : List (List Char × List (List Char)) :=
  [("Food".data, ["lunch".data, "dinner".data, "breakfast".data, "food".data,
      "restaurant".data, "cafe".data, "coffee".data, "snack".data, "meal".data,
      "eat".data, "omelette".data, "omlette".data, "juice".data, "tea".data]),
   ("Transport".data, ["uber".data, "taxi".data, "bus".data, "metro".data,
      "fuel".data, "petrol".data, "parking".data, "ola".data, "auto".data,
      "train".data, "flight".data]),
   ("Groceries".data, ["grocery".data, "groceries".data, "vegetables".data,
      "fruits".data, "supermarket".data, "veggies".data, "market".data]),
   ("Shopping".data, ["shopping".data, "clothes".data, "shoes".data,
      "amazon".data, "flipkart".data, "shop".data, "purchase".data]),
   ("Entertainment".data, ["movie".data, "netflix".data, "subscription".data,
      "game".data, "entertainment".data, "spotify".data, "prime".data]),
   ("Bills".data, ["electricity".data, "water".data, "internet".data,
      "phone".data, "bill".data, "rent".data, "emi".data, "recharge".data]),
   ("Health".data, ["medicine".data, "doctor".data, "hospital".data,
      "pharmacy".data, "health".data, "gym".data, "medical".data,
      "haircut".data])]

/-- One category row matches when some keyword of its set occurs as a
substring of the lowered text. -/
def catMatches (p : List Char × List (List Char)) (tl : List Char) : Bool :=
  p.2.any (fun kw => isSubstr kw tl)

/-- Embedding of `detect_category` (`expense_bot.py:76-85`): lower the
text, return the first category in table order with a matching keyword,
else the fallback. -/
def detect_category (text : List Char) : List Char :=
  match CATEGORY_KEYWORDS.find? (fun p => catMatches p (pyLower text)) with
  | some p => p.1
  | none => "Other".data

/-- Python `int()` applied to a float: truncation toward zero. -/
def pyTrunc (q : ℚ) : Int := q.num.tdiv (q.den : Int)

/-- Decimal rendering of a natural number, as Python `str`. -/
def natLit (n : Nat) : List Char := Nat.toDigits 10 n

/-- Decimal rendering of an integer, as Python `str`. -/
def intLitZ (z : Int) : List Char :=
  if z < 0 then '-' :: natLit z.natAbs else natLit z.natAbs

/-- Python `str(int(q))`: the integer truncation of an amount, rendered
in decimal (used as the substitution literal at `expense_bot.py:298`). -/
def intLit (q : ℚ) : List Char := intLitZ (pyTrunc q)

/-- Regex word characters (`\w`): letters, digits and the underscore
(the notes handled by the bot are ASCII, where this matches Python). -/
def isWordChar (c : Char) : Bool := c.isAlphanum || c == '_'

/-- Word-character test for an optional character; `none` stands for the
edge of the string, which counts as a non-word position for `\b`. -/
def wordAtO : Option Char → Bool
  | none => false
  | some c => isWordChar c

/-- Guard of one step of `re.sub(r'\b' + pat + r'\b', rep, s)`: the
pattern starts here, with a word boundary on each side. -/
def wordHitHere (pat : List Char) (prev : Option Char) (s : List Char) : Bool :=
  startsWith pat s &&
    (wordAtO prev != wordAtO pat.head?) &&
    (wordAtO pat.getLast? != wordAtO (s.drop pat.length).head?)

/-- Fuel-indexed scan of `re.sub(r'\b' + pat + r'\b', rep, ·)`:
non-overlapping left-to-right replacement; boundaries are evaluated on
the original string. The fuel (initially the string length) only
guarantees termination and is never exhausted for a nonempty pattern. -/
def pySubWordF (pat rep : List Char) : Nat → Option Char → List Char → List Char
  | 0, _, s => s
  | _ + 1, _, [] => []
  | fuel + 1, prev, c :: rest =>
    if wordHitHere pat prev (c :: rest) then
      rep ++ pySubWordF pat rep fuel pat.getLast? ((c :: rest).drop pat.length)
    else
      c :: pySubWordF pat rep fuel (some c) rest

/-- Whole-word global substitution
`re.sub(r'\b' + pat + r'\b', rep, s)` (`expense_bot.py:298`). -/
def pySubWord (pat rep s : List Char) : List Char :=
  pySubWordF pat rep s.length none s

/-- Fuel-indexed test that the whole-word pattern occurs somewhere,
scanning exactly as `pySubWordF` does. -/
def hasWholeWordF (pat : List Char) : Nat → Option Char → List Char → Bool
  | 0, _, _ => false
  | _ + 1, _, [] => false
  | fuel + 1, prev, c :: rest =>
    if wordHitHere pat prev (c :: rest) then true
    else hasWholeWordF pat fuel (some c) rest

/-- Whether `pat` occurs as a whole word (between `\b` boundaries)
inside `s`. -/
def hasWholeWord (pat s : List Char) : Bool :=
  hasWholeWordF pat s.length none s

/-- Fuel-indexed removal of every `\d+\.?\d*` token, the
`re.sub(r'\d+\.?\d*', '', text)` step of the edit heuristic
(`expense_bot.py:661`). -/
def removeNumF : Nat → List Char → List Char
  | 0, s => s
  | _ + 1, [] => []
  | fuel + 1, c :: cs =>
    if c.isDigit then
      match (c :: cs).dropWhile Char.isDigit with
      | '.' :: rest2 => removeNumF fuel (rest2.dropWhile Char.isDigit)
      | rest => removeNumF fuel rest
    else c :: removeNumF fuel cs

/-- Removal of every numeric token from the text. -/
def removeNumberTokens (s : List Char) : List Char := removeNumF s.length s

/-- A ledger data row, in the sheet's fixed column order
`[Timestamp, Date, Category, Amount, Message]`; the amount cell is the
stored number. -/
structure Rec where
  ts : List Char
  date : List Char
  category : List Char
  amount : ℚ
  note : List Char
deriving DecidableEq

/-- Value written to a single sheet cell. -/
inductive CellVal
  | num (q : ℚ)
  | str (s : List Char)
deriving DecidableEq

/-- Result record of a successful `update_transaction`
(`expense_bot.py:306-314`). -/
structure UpdResult where
  old_amount : ℚ
  new_amount : ℚ
  old_category : List Char
  new_category : List Char
  message : List Char
  amount_changed : Bool
  category_changed : Bool
deriving DecidableEq

/-- Outcome tag of `update_transaction`. -/
inductive UpdOutcome
  | ok (r : UpdResult)
  | noChanges
  | notFound
deriving DecidableEq

/-- Outbound replies, tagged by the message the bot sends; payloads keep
exactly the data interpolated into the corresponding Python f-string.
`msgText` carries a fully rendered text (used for `/delete` errors,
where the claim is about the message contents). -/
inductive Reply
  | noAmount
  | expenseRecorded (category : List Char) (amount : ℚ)
  | deleteAllEmpty
  | deleteAllWarning (count : Nat)
  | deleteAllDone (count : Nat)
  | deleteAllCancelled
  | txnDeleted (category : List Char) (amount : ℚ) (note : List Char)
  | txnDeleteFailed
  | txnDataMissing
  | txnUpdated (r : UpdResult)
  | updateFailed
  | msgText (s : List Char)
  | rowDeleted (category : List Char) (amount : ℚ) (note : List Char)
  | deleteRowFailed
deriving DecidableEq

/-- Side effects of processing one inbound event: Google-Sheets calls
and outbound replies, in program order. -/
inductive Eff
  | appendRow (r : Rec)
  | updateCell (row col : Nat) (v : CellVal)
  | deleteRow (row : Nat)
  | deleteRowsRange (first last : Nat)
  | reply (r : Reply)
deriving DecidableEq

/-- Row-matching test of the Transaction Matcher
(`expense_bot.py:217-219`): the (amount, category, message) triple must
equal the query exactly (amounts compared as numbers). -/
def matchesQuery (r : Rec) (a : ℚ) (c note : List Char) : Bool :=
  decide (r.amount = a) && c == r.category && note == r.note

/-- Most-recent matching row: the loop
`for i in range(len(records) - 1, -1, -1)` of the matcher returns the
largest index whose row matches, together with that row. -/
def lastMatch : List Rec → ℚ → List Char → List Char → Option (Nat × Rec)
  | [], _, _, _ => none
  | r :: rs, a, c, n =>
    match lastMatch rs a c n with
    | some (i, m) => some (i + 1, m)
    | none => if matchesQuery r a c n then some (0, r) else none

/-- Result of `find_and_delete_transaction`: the deleted row if one
matched, the ledger afterwards, and the sheet calls made. -/
structure FDOut where
  found : Option Rec
  ledger : List Rec
  effs : List Eff
deriving DecidableEq

/-- Embedding of `find_and_delete_transaction` (`expense_bot.py:202-229`):
scan data rows from most recent to oldest, delete the first row whose
triple equals the query (sheet row `i + 2`), else report not-found and
touch nothing. -/
def find_and_delete_transaction (l : List Rec) (a : ℚ) (c note : List Char) : FDOut :=
  match lastMatch l a c note with
  | some (i, r) => ⟨some r, l.eraseIdx i, [Eff.deleteRow (i + 2)]⟩
  | none => ⟨none, l, []⟩

/-- Result of `delete_all_transactions`: the reported count, the ledger
afterwards, and the sheet calls made. -/
structure DAOut where
  count : Nat
  ledger : List Rec
  effs : List Eff
deriving DecidableEq

/-- Embedding of `delete_all_transactions` (`expense_bot.py:231-254`):
with `n` data rows it deletes sheet rows `2 .. n + 1` in one call; with
an empty ledger it reports success with count 0 and makes no call. -/
def delete_all_transactions (l : List Rec) : DAOut :=
  if l.length = 0 then ⟨0, l, []⟩
  else ⟨l.length, [], [Eff.deleteRowsRange 2 (l.length + 1)]⟩

/-- Result of `update_transaction`: outcome tag, the ledger afterwards,
and the sheet calls made. -/
structure UTOut where
  outcome : UpdOutcome
  ledger : List Rec
  effs : List Eff
deriving DecidableEq

/-- Embedding of `update_transaction` (`expense_bot.py:256-320`): locate
the most recent row matching the (amount, category, message) triple;
write the amount cell when the new amount differs, then rewrite the note
by whole-word substitution of `str(int(old))` with `str(int(new))`
(writing the note cell only when the text changed), then write the
category cell when the new category differs. -/
def update_transaction (l : List Rec) (a : ℚ) (c msg : List Char)
    (new_amount : Option ℚ) (new_category : Option (List Char)) : UTOut :=
  match lastMatch l a c msg with
  | none => ⟨.notFound, l, []⟩
  | some (i, row) =>
    let amount_changed : Bool :=
      match new_amount with
      | none => false
      | some na => decide (na ≠ row.amount)
    let category_changed : Bool :=
      match new_category with
      | none => false
      | some nc => nc != row.category
    if !amount_changed && !category_changed then ⟨.noChanges, l, []⟩
    else
      let rn := i + 2
      let na := new_amount.getD row.amount
      let nc := new_category.getD row.category
      let newNote :=
        if amount_changed then pySubWord (intLit row.amount) (intLit na) row.note
        else row.note
      let noteWritten := amount_changed && newNote != row.note
      let newRow : Rec :=
        { row with
          amount := if amount_changed then na else row.amount,
          note := newNote,
          category := if category_changed then nc else row.category }
      ⟨.ok { old_amount := row.amount,
             new_amount := if amount_changed then na else row.amount,
             old_category := row.category,
             new_category := if category_changed then nc else row.category,
             message := msg,
             amount_changed := amount_changed,
             category_changed := category_changed },
       l.set i newRow,
       (if amount_changed then [Eff.updateCell rn 4 (.num na)] else []) ++
       (if noteWritten then [Eff.updateCell rn 5 (.str newNote)] else []) ++
       (if category_changed then [Eff.updateCell rn 3 (.str nc)] else [])⟩

/-- Embedding of `get_recent_transactions` (`expense_bot.py:140-171`):
the last `limit` data rows, each paired with its 1-indexed sheet row
number (`absolute index + 2`). -/
def get_recent_transactions (l : List Rec) (limit : Nat) : List (Nat × Rec) :=
  let start := l.length - min limit l.length
  (l.drop start).mapIdx (fun i r => (start + i + 2, r))

/-- Embedding of `delete_transaction_by_row` (`expense_bot.py:174-199`):
delete one sheet row after validating it (row 1 is the header). -/
def delete_transaction_by_row (l : List Rec) (rn : Nat) : Option (List Rec × List Eff) :=
  if rn < 2 then none
  else if rn - 2 < l.length then some (l.eraseIdx (rn - 2), [Eff.deleteRow rn])
  else none

/-- Continuation of Python's integer-literal grammar after its first
digit: `(["_"] digit)*` — each underscore must be followed by a digit,
so a trailing or doubled underscore is rejected. -/
def pyDigitTail : List Char → Bool
  | [] => true
  | '_' :: c :: cs => c.isDigit && pyDigitTail cs
  | c :: cs => c.isDigit && pyDigitTail cs

/-- Python's integer-digit grammar `digit (["_"] digit)*`: a nonempty
digit run with optional single underscores between digits. -/
def pyDigitRun (l : List Char) : Bool :=
  match l with
  | c :: cs => c.isDigit && pyDigitTail cs
  | [] => false

/-- Python `int(s)` on a command argument: optional surrounding
whitespace, an optional sign, then digits with optional single
underscore separators (`int("1_0")` is 10); the value ignores the
underscores. (Arguments are modelled over ASCII text, where Python's
whitespace and decimal-digit classes coincide with `Char.isWhitespace`
and `Char.isDigit`.) -/
def pyParseInt (t : List Char) : Option Int :=
  let s := pyStrip t
  let core : List Char × Bool :=
    match s with
    | '-' :: ds => (ds, true)
    | '+' :: ds => (ds, false)
    | ds => (ds, false)
  if pyDigitRun core.1 then
    let v : Nat := digitsVal (core.1.filter (fun c => c != '_'))
    some (if core.2 then -(v : Int) else (v : Int))
  else none

/-- Transaction Index entry (`expense_bot.py:780-784`): the data stored
under a message id. -/
structure TxnData where
  amount : ℚ
  category : List Char
  message : List Char
deriving DecidableEq

/-- In-memory bot state: the dedup set of processed message ids (the
CPython set carried as the list of its contents in insertion order; its
iteration order is supplied separately by an order oracle), the
confirmation gate, the transaction index and the ledger. -/
structure BotState where
  processed : List Nat
  pendingDeleteall : Bool
  deleteallCount : Nat
  txns : List (Nat × TxnData)
  ledger : List Rec
deriving DecidableEq

/-- Dictionary lookup in the transaction index. -/
def lookupTxn (t : List (Nat × TxnData)) (k : Nat) : Option TxnData :=
  (t.find? (fun p => p.1 == k)).map (fun p => p.2)

/-- Dictionary assignment `transactions[k] = v`. -/
def insertTxn (t : List (Nat × TxnData)) (k : Nat) (v : TxnData) : List (Nat × TxnData) :=
  (k, v) :: t.filter (fun p => p.1 != k)

/-- Dictionary deletion `del transactions[k]`. -/
def removeTxn (t : List (Nat × TxnData)) (k : Nat) : List (Nat × TxnData) :=
  t.filter (fun p => p.1 != k)

/-- One inbound chat message: its id, text, the id of the message it
replies to (if any), the id the transport will hand the bot's own
confirmation reply, and the wall-clock strings used for a new row. -/
structure Msg where
  msgId : Nat
  text : List Char
  replyTo : Option Nat
  botReplyId : Nat
  ts : List Char
  date : List Char
deriving DecidableEq

/-- Membership of a message id in the dedup list. -/
def containsId (l : List Nat) (x : Nat) : Bool := l.any (fun y => y == x)

/-- Eviction step of the dedup cache (`expense_bot.py:547-550`):
`msg_list = list(set)` materialises the set in CPython's unspecified
hash order — modelled by the oracle `ord` applied to the set's
contents — and `set(msg_list[-100:])` keeps the last 100 elements of
that order. Which identifiers survive therefore depends on `ord`. -/
def evictProcessed (ord : List Nat → List Nat) (l : List Nat) : List Nat :=
  if l.length > 100 then (ord l).drop ((ord l).length - 100) else l

/-- The iteration order CPython exhibits for the dense small integer
ids used in the concrete fixtures: integers hash to themselves, so a
set of small ids built in increasing order also iterates in that order,
and `list(s)` returns the contents as carried. -/
def idOrd : List Nat → List Nat := fun l => l

/-- Recording of a fresh message id followed by the eviction check
(`expense_bot.py:544-550`). -/
def afterDedup (ord : List Nat → List Nat) (s : BotState) (m : Msg) : BotState :=
  { s with processed := evictProcessed ord (s.processed ++ [m.msgId]) }

/-- The reserved confirmation test
`text.strip().upper() == 'CONFIRM DELETE ALL'` (`expense_bot.py:554`). -/
def isConfirm (t : List Char) : Bool :=
  pyUpper (pyStrip t) == "CONFIRM DELETE ALL".data

/-- Amount-edit trigger (`expense_bot.py:662`): Python truthiness of the
extracted amount (`None` and `0.0` are both falsy) and a short remainder
once numeric tokens are removed and the text is stripped. -/
def amountEditFlag (text : List Char) : Bool :=
  (match extract_amount text with
   | none => false
   | some q => decide (q ≠ 0)) &&
  decide ((pyStrip (removeNumberTokens text)).length < 15)

/-- Category-edit trigger (`expense_bot.py:668`): the classified
category is not the fallback and differs from the stored category. -/
def categoryEditFlag (text cat : List Char) : Bool :=
  detect_category text != "Other".data && detect_category text != cat

/-- New-expense flow (`expense_bot.py:716-801`): extract an amount
(reporting absence), classify, append the row, reply, and index the
record under both the bot's confirmation id and the user's message id. -/
def newExpense (s : BotState) (m : Msg) : BotState × List Eff :=
  match extract_amount m.text with
  | none => (s, [Eff.reply Reply.noAmount])
  | some amount =>
    let category := detect_category m.text
    let row : Rec := ⟨m.ts, m.date, category, amount, m.text⟩
    let d : TxnData := ⟨amount, category, m.text⟩
    ({ s with ledger := s.ledger ++ [row],
              txns := insertTxn (insertTxn s.txns m.botReplyId d) m.msgId d },
     [Eff.appendRow row, Eff.reply (Reply.expenseRecorded category amount)])

/-- Reaction to the outcome of `update_transaction` in the edit branch
(`expense_bot.py:672-713`): commit the new ledger and confirm, or only
report the failure text. -/
def applyEdit (s : BotState) (ut : UTOut) : BotState × List Eff :=
  match ut.outcome with
  | .ok r => ({ s with ledger := ut.ledger }, ut.effs ++ [Eff.reply (Reply.txnUpdated r)])
  | _ => (s, ut.effs ++ [Eff.reply Reply.updateFailed])

/-- Edit branch for a reply to a tracked message
(`expense_bot.py:645-714`); when neither edit flag is set the code falls
through to the new-expense flow. -/
def editOrNew (s : BotState) (m : Msg) (d : TxnData) : BotState × List Eff :=
  if amountEditFlag m.text || categoryEditFlag m.text d.category then
    applyEdit s (update_transaction s.ledger d.amount d.category d.message
      (if amountEditFlag m.text then extract_amount m.text else none)
      (if categoryEditFlag m.text d.category then some (detect_category m.text) else none))
  else newExpense s m

/-- Reaction to the matcher's result in the delete branch
(`expense_bot.py:620-633`): on success commit the ledger and drop the
index entry; on failure only report. -/
def applyDelete (s : BotState) (rid : Nat) (d : TxnData) (fd : FDOut) : BotState × List Eff :=
  match fd.found with
  | some _ =>
    ({ s with ledger := fd.ledger, txns := removeTxn s.txns rid },
     fd.effs ++ [Eff.reply (Reply.txnDeleted d.category d.amount d.message)])
  | none => (s, fd.effs ++ [Eff.reply Reply.txnDeleteFailed])

/-- Content-based delete branch for a reply containing the word
`delete` (`expense_bot.py:592-641`): on an index hit run the matcher;
on an index miss only report. -/
def deleteReply (s : BotState) (_m : Msg) (rid : Nat) : BotState × List Eff :=
  match lookupTxn s.txns rid with
  | none => (s, [Eff.reply Reply.txnDataMissing])
  | some d =>
    applyDelete s rid d (find_and_delete_transaction s.ledger d.amount d.category d.message)

/-- Reply routing of `handle_message` (`expense_bot.py:585-714`): a
reply whose text contains `delete` goes to the delete branch; any other
reply to a tracked message goes to the edit branch; everything else is a
new expense. -/
def replyCheck (s : BotState) (m : Msg) : BotState × List Eff :=
  match m.replyTo with
  | none => newExpense s m
  | some rid =>
    if isSubstr "delete".data (pyLower m.text) then deleteReply s m rid
    else
      match lookupTxn s.txns rid with
      | some d => editOrNew s m d
      | none => newExpense s m

/-- Confirmation-gate check of `handle_message`
(`expense_bot.py:553-581`): with a bulk delete pending, the reserved
phrase executes it and any other message cancels; both clear the flag. -/
def gateCheck (s : BotState) (m : Msg) : BotState × List Eff :=
  if s.pendingDeleteall then
    if isConfirm m.text then
      let da := delete_all_transactions s.ledger
      ({ s with pendingDeleteall := false, ledger := da.ledger },
       da.effs ++ [Eff.reply (Reply.deleteAllDone da.count)])
    else
      ({ s with pendingDeleteall := false }, [Eff.reply Reply.deleteAllCancelled])
  else replyCheck s m

/-- Embedding of `handle_message` (`expense_bot.py:529-801`): duplicate
ids are dropped silently before any other step; fresh ids are recorded
(with eviction) and then flow through gate, reply routing and the
expense flow. -/
def handle_message (ord : List Nat → List Nat) (s : BotState) (m : Msg) :
    BotState × List Eff :=
  if containsId s.processed m.msgId then (s, [])
  else gateCheck (afterDedup ord s m) m

/-- Embedding of `deleteall_command` (`expense_bot.py:488-527`): with an
empty ledger it only reports; otherwise it arms the confirmation gate
and sends the warning. -/
def deleteall_command (s : BotState) : BotState × List Eff :=
  if s.ledger.length = 0 then (s, [Eff.reply Reply.deleteAllEmpty])
  else
    ({ s with pendingDeleteall := true, deleteallCount := s.ledger.length },
     [Eff.reply (Reply.deleteAllWarning s.ledger.length)])

/-- Text of the `/delete` usage reply (`expense_bot.py:431-437`). -/
def deleteUsageMsg : List Char :=
  "‚ùå Please specify which transaction to delete.\n\nUsage: `/delete <number>`\nExample: `/delete 3`\n\nUse `/recent` to see your transactions.".data

/-- Text of the `/delete` reply for a non-numeric argument
(`expense_bot.py:476-482`); it restates the usage but not the valid
range. Its prefix `‚ùå ` is the committed double-encoded remnant of the
intended cross-mark emoji, reproduced byte-for-byte. -/
def invalidFormatMsg : List Char :=
  "‚ùå Invalid number format.\n\nUsage: `/delete <number>`\nExample: `/delete 3`".data

/-- Text of the `/delete` reply for an out-of-range number
(`expense_bot.py:447-454`), restating the valid range `1 .. count`. -/
def invalidRangeMsg (n : Int) (count : Nat) : List Char :=
  "‚ùå Invalid transaction number: ".data ++ intLitZ n ++
  "\n\nPlease choose a number between 1 and ".data ++ natLit count ++
  ".\nUse `/recent` to see your transactions.".data

/-- Embedding of `delete_command` (`expense_bot.py:427-486`): parse the
argument, map the 1-based position onto the recent-transaction window,
and delete the referenced sheet row; every invalid input only replies. -/
def delete_command (s : BotState) (args : List (List Char)) : BotState × List Eff :=
  match args with
  | [] => (s, [Eff.reply (Reply.msgText deleteUsageMsg)])
  | a :: _ =>
    match pyParseInt a with
    | none => (s, [Eff.reply (Reply.msgText invalidFormatMsg)])
    | some n =>
      let txns := get_recent_transactions s.ledger 10
      if n < 1 || n > (txns.length : Int) then
        (s, [Eff.reply (Reply.msgText (invalidRangeMsg n txns.length))])
      else
        match txns[n.toNat - 1]? with
        | none => (s, [Eff.reply Reply.deleteRowFailed])
        | some (rn, r) =>
          match delete_transaction_by_row s.ledger rn with
          | some (l', effs) =>
            ({ s with ledger := l' },
             effs ++ [Eff.reply (Reply.rowDeleted r.category r.amount r.note)])
          | none => (s, [Eff.reply Reply.deleteRowFailed])

/-- One inbound event: the commands the claims exercise, or a plain text
message (commands are routed by the transport and never reach
`handle_message`). -/
inductive Inbound
  | deleteallCmd
  | deleteCmd (args : List (List Char))
  | textMsg (m : Msg)
deriving DecidableEq

/-- Dispatch of one inbound event. -/
def step (ord : List Nat → List Nat) (s : BotState) (i : Inbound) : BotState × List Eff :=
  match i with
  | .deleteallCmd => deleteall_command s
  | .deleteCmd args => delete_command s args
  | .textMsg m => handle_message ord s m

/-- Processing of a message sequence, accumulating the effect trace. -/
def run (ord : List Nat → List Nat) : BotState → List Inbound → BotState × List Eff
  | s, [] => (s, [])
  | s, i :: is =>
    let r1 := step ord s i
    let r2 := run ord r1.1 is
    (r2.1, r1.2 ++ r2.2)

/-- Whether an effect is the bulk delete call
(`sheet.delete_rows(2, len(all_values))`). -/
def isBulkDeleteEff : Eff → Bool
  | .deleteRowsRange _ _ => true
  | _ => false

/-- Whether an effect is a ledger append. -/
def isAppendEff : Eff → Bool
  | .appendRow _ => true
  | _ => false

/-- Whether an effect is a cell update (the edit heuristic's writes). -/
def isUpdateEff : Eff → Bool
  | .updateCell _ _ _ => true
  | _ => false

/-- Number of bulk delete calls in a trace. -/
def countBulk (l : List Eff) : Nat := (l.filter isBulkDeleteEff).length

/-- Number of ledger appends in a trace. -/
def countAppend (l : List Eff) : Nat := (l.filter isAppendEff).length

/-- Number of cell updates in a trace. -/
def countUpdate (l : List Eff) : Nat := (l.filter isUpdateEff).length

/-! Concrete fixtures used by the claim theorems, their witnesses and
counterexamples. -/

/-- A fresh bot state over an empty ledger. -/
def emptyState : BotState := ⟨[], false, 0, [], []⟩

/-- The spec's duplicate matcher row `{amount:100, category:Food,
note:"lunch 100"}`. -/
def dupRec : Rec := ⟨"t".data, "d".data, "Food".data, 100, "lunch 100".data⟩

/-- The spec's tracked edit example `{amount:250, category:Food}`. -/
def editRec : Rec := ⟨"t".data, "d".data, "Food".data, 250, "lunch 250".data⟩

/-- Index entry for `editRec`. -/
def editTxn : TxnData := ⟨250, "Food".data, "lunch 250".data⟩

/-- State tracking `editRec` under message id 1. -/
def editState : BotState := ⟨[], false, 0, [(1, editTxn)], [editRec]⟩

/-- A reply to the tracked message id 1 with the given text. -/
def editMsg (t : String) : Msg := ⟨9, t.data, some 1, 10, "t".data, "d".data⟩

/-- A row with the fractional amount 250.5. -/
def fracRec : Rec := ⟨"t".data, "d".data, "Food".data, mkRat 501 2, "snack 250.5".data⟩

/-- A three-row ledger for the `/delete` examples. -/
def delLedger : List Rec :=
  [⟨"t".data, "d".data, "Food".data, 1, "a 1".data⟩,
   ⟨"t".data, "d".data, "Food".data, 2, "b 2".data⟩,
   ⟨"t".data, "d".data, "Food".data, 3, "c 3".data⟩]

/-- State over the three-row ledger. -/
def delState : BotState := ⟨[], false, 0, [], delLedger⟩

/-- State over a one-row ledger, for the confirmation-gate runs. -/
def gateState : BotState := ⟨[], false, 0, [], [editRec]⟩

/-- The confirmation phrase sent in lower case (the comparison is
case-insensitive). -/
def confirmMsg : Msg := ⟨5, "confirm delete all".data, none, 6, "t".data, "d".data⟩

/-- A cancelling message. -/
def cancelMsg : Msg := ⟨5, "no".data, none, 6, "t".data, "d".data⟩

/-- An expense message with id 0, redelivered later. -/
def dupMsg : Msg := ⟨0, "x 1".data, none, 1000, "t".data, "d".data⟩

/-- One hundred distinct digit-free filler messages. -/
def fillerMsg (i : Nat) : Msg := ⟨i + 1, "hello".data, none, 2000 + i, "t".data, "d".data⟩

/-- Delivery of id 0, then 100 fresh ids, then id 0 again: enough
traffic to push id 0 out of the bounded dedup list. -/
def dupSeq : List Inbound :=
  [Inbound.textMsg dupMsg] ++
    (List.range 100).map (fun i => Inbound.textMsg (fillerMsg i)) ++
  [Inbound.textMsg dupMsg]

example : extract_amount "Lunch ₹250 with friend".data = some 250 := by decide
example : extract_amount "3 coffees for 150".data = some 3 := by decide
example : extract_amount "hello".data = none := by decide
example : extract_amount "snack 250.5".data = some (mkRat 501 2) := by decide
example : detect_category "Uber to office 180".data = "Transport".data := by decide
example : detect_category "xyz 42".data = "Other".data := by decide
example : pyParseInt "1_0".data = some 10 := by decide
example : pyParseInt " -42 ".data = some (-42) := by decide
example : pyParseInt "1__0".data = none := by decide
example : pyParseInt "1_".data = none := by decide
example : pyParseInt "_1".data = none := by decide
example : pyParseInt "abc".data = none := by decide

/-! Lemmas about the extractor. -/

lemma currency_not_digit : ∀ c ∈ currencyChars, c.isDigit = false := by decide

lemma mem_stripCurrency_of_digit {t : List Char} {c : Char} (hc : c.isDigit = true)
    (hm : c ∈ t) : c ∈ stripCurrency t := by
  refine List.mem_filter.mpr ⟨hm, ?_⟩
  cases h : currencyChars.contains c with
  | true =>
    have hmem : c ∈ currencyChars := List.elem_iff.mp h
    have := currency_not_digit c hmem
    rw [this] at hc
    exact absurd hc (by simp)
  | false => simp [h]

lemma firstNumberToken_eq_none : ∀ {l : List Char},
    firstNumberToken l = none ↔ ∀ c ∈ l, c.isDigit = false := by
  intro l
  induction l with
  | nil => simp [firstNumberToken]
  | cons c cs ih =>
    cases h : c.isDigit with
    | true =>
      refine iff_of_false (by simp [firstNumberToken, h]) ?_
      intro hall
      have := hall c (by simp)
      rw [this] at h
      exact absurd h (by simp)
    | false => simp [firstNumberToken, h, ih]

lemma extract_amount_eq_none {t : List Char} :
    extract_amount t = none ↔ ∀ c ∈ t, c.isDigit = false := by
  unfold extract_amount
  rw [Option.map_eq_none', firstNumberToken_eq_none]
  constructor
  · intro h c hm
    cases hd : c.isDigit with
    | true =>
      have h2 := h c (mem_stripCurrency_of_digit hd hm)
      rw [hd] at h2
      exact h2
    | false => rfl
  · intro h c hm
    exact h c (List.mem_of_mem_filter hm)

lemma takeWhile_dropWhile_append {p : Char → Bool} :
    ∀ (ds rest : List Char), (∀ c ∈ ds, p c = true) →
      (∀ r, rest.head? = some r → p r = false) →
      (ds ++ rest).takeWhile p = ds ∧ (ds ++ rest).dropWhile p = rest
  | [], rest, _, hr => by
    cases rest with
    | nil => simp
    | cons r rs =>
      have := hr r rfl
      simp [List.takeWhile_cons, List.dropWhile_cons, this]
  | d :: ds, rest, hd, hr => by
    have h1 : p d = true := hd d (by simp)
    have ih := takeWhile_dropWhile_append ds rest (fun c hc => hd c (by simp [hc])) hr
    simp [List.takeWhile_cons, List.dropWhile_cons, h1, ih.1, ih.2]

lemma firstNumberToken_append_of_noDigit :
    ∀ (pre l : List Char), (∀ c ∈ pre, c.isDigit = false) →
      firstNumberToken (pre ++ l) = firstNumberToken l
  | [], _, _ => rfl
  | c :: pre, l, h => by
    have hc : c.isDigit = false := h c (by simp)
    have ih := firstNumberToken_append_of_noDigit pre l (fun x hx => h x (by simp [hx]))
    simp [firstNumberToken, hc, ih]

lemma digitsVal_nil : digitsVal [] = 0 := rfl

lemma firstNumberToken_int {ds rest : List Char}
    (hne : ds ≠ []) (hds : ∀ c ∈ ds, c.isDigit = true)
    (hr : ∀ r, rest.head? = some r → r.isDigit = false ∧ r ≠ '.') :
    firstNumberToken (ds ++ rest) = some ds := by
  obtain ⟨d, ds', rfl⟩ := List.exists_cons_of_ne_nil hne
  have hd : d.isDigit = true := hds d (by simp)
  have htw := takeWhile_dropWhile_append (d :: ds') rest hds (fun r h => (hr r h).1)
  rw [List.cons_append]
  simp only [firstNumberToken]
  rw [if_pos hd, ← List.cons_append, htw.1, htw.2]
  cases rest with
  | nil => simp
  | cons r rs =>
    have hner : r ≠ '.' := (hr r rfl).2
    split
    · rename_i rest2 heq
      exfalso
      injection heq with h1 h2
      exact hner h1
    · simp

lemma firstNumberToken_dec {ds fs rest : List Char}
    (hne : ds ≠ []) (hds : ∀ c ∈ ds, c.isDigit = true) (hfs : ∀ c ∈ fs, c.isDigit = true)
    (hr : ∀ r, rest.head? = some r → r.isDigit = false) :
    firstNumberToken (ds ++ ('.' :: (fs ++ rest))) = some (ds ++ ('.' :: fs)) := by
  obtain ⟨d, ds', rfl⟩ := List.exists_cons_of_ne_nil hne
  have hd : d.isDigit = true := hds d (by simp)
  have htw := takeWhile_dropWhile_append (d :: ds') ('.' :: (fs ++ rest)) hds
    (fun r h => by
      simp only [List.head?_cons, Option.some.injEq] at h
      subst h
      decide)
  have htw2 := takeWhile_dropWhile_append fs rest hfs hr
  rw [List.cons_append]
  simp only [firstNumberToken]
  rw [if_pos hd, ← List.cons_append]
  rw [htw.1, htw.2]
  simp [htw2.1]

lemma tokenValue_int {ds : List Char} (hds : ∀ c ∈ ds, c.isDigit = true) :
    tokenValue ds = (digitsVal ds : ℚ) := by
  unfold tokenValue
  have h1 := takeWhile_dropWhile_append ds [] hds (by simp)
  rw [List.append_nil] at h1
  rw [h1.1, h1.2]
  simp [Rat.mkRat_one, digitsVal_nil]

lemma tokenValue_dec {ds fs : List Char} (hds : ∀ c ∈ ds, c.isDigit = true) :
    tokenValue (ds ++ ('.' :: fs)) =
      mkRat (digitsVal ds * 10 ^ fs.length + digitsVal fs) (10 ^ fs.length) := by
  unfold tokenValue
  have h1 := takeWhile_dropWhile_append ds ('.' :: fs) hds
    (fun r h => by
      simp only [List.head?_cons, Option.some.injEq] at h
      subst h
      decide)
  rw [h1.1, h1.2]
  simp

/-- C3 (corrected, amended). The Extractor removes the characters of
the committed regex class — the double-encoded remnants `‚ Ç π ¨ ¬`
together with `$`, `£` and the comma, not the rupee or euro signs the
claim names — and then returns the value of the first numeric token:
for a text whose cleaned form starts (after a digit-free prefix) with a
maximal digit run it returns that run's value, including the decimal
case; a text with no digit at all yields `none`; and the spec's two
examples evaluate as stated (the unstripped rupee sign is not a digit,
so it does not disturb them). -/
theorem C3_extractor :
    (∀ t : List Char, extract_amount t = none ↔ ∀ c ∈ t, c.isDigit = false) ∧
    (∀ t pre ds rest : List Char, stripCurrency t = pre ++ (ds ++ rest) →
       (∀ c ∈ pre, c.isDigit = false) → ds ≠ [] → (∀ c ∈ ds, c.isDigit = true) →
       (∀ r, rest.head? = some r → r.isDigit = false ∧ r ≠ '.') →
       extract_amount t = some ((digitsVal ds : ℚ))) ∧
    (∀ t pre ds fs rest : List Char, stripCurrency t = pre ++ (ds ++ ('.' :: (fs ++ rest))) →
       (∀ c ∈ pre, c.isDigit = false) → ds ≠ [] → (∀ c ∈ ds, c.isDigit = true) →
       (∀ c ∈ fs, c.isDigit = true) → (∀ r, rest.head? = some r → r.isDigit = false) →
       extract_amount t =
         some (mkRat (digitsVal ds * 10 ^ fs.length + digitsVal fs) (10 ^ fs.length))) ∧
    extract_amount "Lunch ₹250 with friend".data = some 250 ∧
    extract_amount "3 coffees for 150".data = some 3 := by
  refine ⟨fun t => extract_amount_eq_none, ?_, ?_, by decide, by decide⟩
  · intro t pre ds rest hsplit hpre hne hds hr
    unfold extract_amount
    rw [hsplit]
    rw [firstNumberToken_append_of_noDigit pre _ hpre, firstNumberToken_int hne hds hr]
    simp [tokenValue_int hds]
  · intro t pre ds fs rest hsplit hpre hne hds hfs hr
    unfold extract_amount
    rw [hsplit]
    rw [firstNumberToken_append_of_noDigit pre _ hpre, firstNumberToken_dec hne hds hfs hr]
    simp [tokenValue_dec hds]

/-- Witness for C3: the general first-token clause instantiated at the
spec's own example (the rupee sign survives the committed class and
sits in the digit-free prefix). -/
theorem C3_extractor_witness :
    extract_amount "Lunch ₹250 with friend".data = some ((digitsVal "250".data : ℚ)) :=
  C3_extractor.2.1 "Lunch ₹250 with friend".data "Lunch ₹".data "250".data " with friend".data
    (by decide) (by decide) (by decide) (by decide) (by decide)

/-- Counterexample to C3 as stated: the committed regex class is the
double-encoded remnant of the intended currency symbols, so the rupee
and euro signs are not stripped (while the stray characters `π ‚ Ç ¨ ¬`
are): on `5€6` the program keeps the euro sign between the digit runs
and returns 5.0, whereas stripping the currency symbols as the claim
words it (modelled by `spec_extract_amount`) merges the runs and gives
56.0; on `5π6` the program strips `π` and returns 56.0 against the
claim's 5.0. -/
theorem C3_counterexample :
    extract_amount "5€6".data = some 5 ∧
    spec_extract_amount "5€6".data = some 56 ∧
    extract_amount "5π6".data = some 56 ∧
    spec_extract_amount "5π6".data = some 5 ∧
    (5 : ℚ) ≠ 56 := by decide

/-! Lemmas about the classifier. -/

lemma find?_first {α : Type} (p : α → Bool) {L : List α} :
    ∀ {i : Nat} {x : α}, L[i]? = some x → p x = true →
      (∀ j y, j < i → L[j]? = some y → p y = false) → L.find? p = some x := by
  induction L with
  | nil => intro i x hx _ _; simp at hx
  | cons a L ih =>
    intro i x hx hp hfirst
    cases i with
    | zero =>
      simp only [List.getElem?_cons_zero, Option.some.injEq] at hx
      subst hx
      simp [List.find?, hp]
    | succ i =>
      have ha : p a = false := hfirst 0 a (Nat.succ_pos i) (by simp)
      have hih := ih (by simpa using hx) hp
        (fun j y hj hy => hfirst (j + 1) y (Nat.succ_lt_succ hj) (by simpa using hy))
      simp [List.find?, ha, hih]

/-- C8 (confirmed). The Classifier lowers the text and scans the fixed
ordered keyword table: the result is always a table category or the
fallback; whenever a row matches and every earlier row does not, that
row's category is returned (table order is the tie-break); and when no
row matches the fallback is returned. As a Lean function the embedding
is pure and deterministic by construction. -/
theorem C8_classifier :
    (∀ t : List Char, detect_category t = "Other".data ∨
       ∃ p ∈ CATEGORY_KEYWORDS, detect_category t = p.1) ∧
    (∀ (t : List Char) (i : Nat) (x : List Char × List (List Char)),
       CATEGORY_KEYWORDS[i]? = some x → catMatches x (pyLower t) = true →
       (∀ j y, j < i → CATEGORY_KEYWORDS[j]? = some y → catMatches y (pyLower t) = false) →
       detect_category t = x.1) ∧
    (∀ t : List Char, (∀ p ∈ CATEGORY_KEYWORDS, catMatches p (pyLower t) = false) →
       detect_category t = "Other".data) := by
  refine ⟨?_, ?_, ?_⟩
  · intro t
    unfold detect_category
    cases h : CATEGORY_KEYWORDS.find? (fun p => catMatches p (pyLower t)) with
    | none => left; rfl
    | some p => right; exact ⟨p, List.mem_of_find?_eq_some h, rfl⟩
  · intro t i x hx hm hfirst
    unfold detect_category
    rw [find?_first _ hx hm hfirst]
  · intro t hall
    unfold detect_category
    rw [List.find?_eq_none.mpr (fun p hp => by rw [hall p hp]; simp)]

/-- Witness for C8: the fallback clause instantiated at a keyword-free
text. -/
theorem C8_classifier_witness : detect_category "xyz 42".data = "Other".data :=
  C8_classifier.2.2 "xyz 42".data (by decide)

/-! Lemmas about the Transaction Matcher. -/

lemma lastMatch_eq_none {a : ℚ} {c n : List Char} {l : List Rec} :
    (∀ r ∈ l, matchesQuery r a c n = false) → lastMatch l a c n = none := by
  induction l with
  | nil => intro _; rfl
  | cons x xs ih =>
    intro h
    have hx : matchesQuery x a c n = false := h x (by simp)
    have hxs := ih (fun r hr => h r (by simp [hr]))
    simp [lastMatch, hxs, hx]

lemma lastMatch_eq_some {a : ℚ} {c n : List Char} {l : List Rec} :
    ∀ {i : Nat} {r : Rec}, l[i]? = some r → matchesQuery r a c n = true →
      (∀ j y, i < j → l[j]? = some y → matchesQuery y a c n = false) →
      lastMatch l a c n = some (i, r) := by
  induction l with
  | nil => intro i r hx _ _; simp at hx
  | cons x xs ih =>
    intro i r hx hp hlast
    cases i with
    | zero =>
      simp only [List.getElem?_cons_zero, Option.some.injEq] at hx
      subst hx
      have hnone : lastMatch xs a c n = none := by
        apply lastMatch_eq_none
        intro y hy
        obtain ⟨j, hj⟩ := List.mem_iff_getElem?.mp hy
        exact hlast (j + 1) y (Nat.succ_pos j) (by simpa using hj)
      simp [lastMatch, hnone, hp]
    | succ i =>
      have hih := ih (by simpa using hx) hp
        (fun j y hj hy => hlast (j + 1) y (Nat.succ_lt_succ hj) (by simpa using hy))
      simp [lastMatch, hih]

/-- C4 (confirmed). The Transaction Matcher scans the ledger from most
recent to oldest: when row `i` matches the query triple and no row after
it does, exactly that row is removed (sheet row `i + 2`) and returned;
when no row matches, it reports not-found and deletes nothing; and on a
ledger holding two identical rows, the content-based delete removes the
higher-indexed one (sheet row 3, not row 2). -/
theorem C4_matcher :
    (∀ (l : List Rec) (a : ℚ) (c n : List Char) (i : Nat) (r : Rec),
       l[i]? = some r → matchesQuery r a c n = true →
       (∀ j y, i < j → l[j]? = some y → matchesQuery y a c n = false) →
       find_and_delete_transaction l a c n = ⟨some r, l.eraseIdx i, [Eff.deleteRow (i + 2)]⟩) ∧
    (∀ (l : List Rec) (a : ℚ) (c n : List Char),
       (∀ r ∈ l, matchesQuery r a c n = false) →
       find_and_delete_transaction l a c n = ⟨none, l, []⟩) ∧
    find_and_delete_transaction [dupRec, dupRec] 100 "Food".data "lunch 100".data =
      ⟨some dupRec, [dupRec], [Eff.deleteRow 3]⟩ := by
  refine ⟨?_, ?_, by decide⟩
  · intro l a c n i r hx hp hlast
    unfold find_and_delete_transaction
    rw [lastMatch_eq_some hx hp hlast]
  · intro l a c n hall
    unfold find_and_delete_transaction
    rw [lastMatch_eq_none hall]

/-- Witness for C4: the most-recent-wins clause instantiated on the
two-identical-rows ledger, picking index 1. -/
theorem C4_matcher_witness :
    find_and_delete_transaction [dupRec, dupRec] 100 "Food".data "lunch 100".data =
      ⟨some dupRec, ([dupRec, dupRec] : List Rec).eraseIdx 1, [Eff.deleteRow 3]⟩ := by
  have h := C4_matcher.1 [dupRec, dupRec] 100 "Food".data "lunch 100".data 1 dupRec
    (by decide) (by decide)
    (fun j y hj hy => by
      have : 2 ≤ j := hj
      have hnone : ([dupRec, dupRec] : List Rec)[j]? = none :=
        List.getElem?_eq_none (by simpa using this)
      rw [hnone] at hy
      exact absurd hy (by simp))
  simpa using h

/-! Lemmas about whole-word substitution and `update_transaction`. -/

lemma pySubWordF_id {pat rep : List Char} :
    ∀ (fuel : Nat) (prev : Option Char) (s : List Char),
      hasWholeWordF pat fuel prev s = false → pySubWordF pat rep fuel prev s = s
  | 0, _, _, _ => rfl
  | _ + 1, _, [], _ => rfl
  | fuel + 1, prev, c :: rest, h => by
    unfold hasWholeWordF at h
    unfold pySubWordF
    cases hw : wordHitHere pat prev (c :: rest) with
    | true =>
      rw [hw] at h
      simp at h
    | false =>
      rw [hw] at h
      simp only [Bool.false_eq_true, if_false] at h ⊢
      rw [pySubWordF_id fuel (some c) rest h]

lemma pySubWord_id {pat rep s : List Char} (h : hasWholeWord pat s = false) :
    pySubWord pat rep s = s :=
  pySubWordF_id s.length none s h

/-- C7 (corrected, amended). When an edit changes a matched row's
amount, the stored note is rewritten by whole-word substitution of the
integer truncations `str(int(old))` by `str(int(new))`; the note cell is
written exactly when that substitution changed the text, and when the
truncated old amount has no whole-word occurrence in the note the note
is left unchanged and the amount cell is the only write. -/
theorem C7_note_substitution :
    ∀ (l : List Rec) (a : ℚ) (c msg : List Char) (na : ℚ) (i : Nat) (row : Rec),
      lastMatch l a c msg = some (i, row) → na ≠ row.amount →
      (update_transaction l a c msg (some na) none).ledger =
        l.set i { row with amount := na,
                           note := pySubWord (intLit row.amount) (intLit na) row.note } ∧
      (update_transaction l a c msg (some na) none).effs =
        Eff.updateCell (i + 2) 4 (.num na) ::
          (if pySubWord (intLit row.amount) (intLit na) row.note != row.note then
            [Eff.updateCell (i + 2) 5
              (.str (pySubWord (intLit row.amount) (intLit na) row.note))]
          else []) ∧
      (hasWholeWord (intLit row.amount) row.note = false →
        (update_transaction l a c msg (some na) none).ledger =
          l.set i { row with amount := na } ∧
        (update_transaction l a c msg (some na) none).effs =
          [Eff.updateCell (i + 2) 4 (.num na)]) := by
  intro l a c msg na i row hlm hna
  have hd : decide (na ≠ row.amount) = true := decide_eq_true hna
  refine ⟨?_, ?_, ?_⟩
  · unfold update_transaction
    rw [hlm]
    simp [hd]
  · unfold update_transaction
    rw [hlm]
    simp [hd]
  · intro hw
    have hid := @pySubWord_id (intLit row.amount) (intLit na) row.note hw
    constructor
    · unfold update_transaction
      rw [hlm]
      simp [hd, hid]
    · unfold update_transaction
      rw [hlm]
      simp [hd, hid]

/-- Witness for C7: the tracked example row, edited from 250 to 300,
with the note rewritten by the whole-word substitution. -/
theorem C7_note_substitution_witness :
    (update_transaction [editRec] 250 "Food".data "lunch 250".data (some 300) none).ledger =
      [editRec].set 0 { editRec with amount := 300,
                                     note := pySubWord (intLit editRec.amount)
                                       (intLit (300 : ℚ)) editRec.note } :=
  (C7_note_substitution [editRec] 250 "Food".data "lunch 250".data 300 0 editRec
    (by decide) (by decide)).1

/-- Counterexample to C7 as stated: for the fractional amount 250.5 the
code substitutes the integer truncation `250`, not the old amount
literal `250.5`. Editing the amount to 300 turns the note `snack 250.5`
into `snack 300.5`, which is neither the substitution of the old amount
literal by the new amount (that would give `snack 300` or
`snack 300.0`, depending on the float rendering) nor the unchanged
note. -/
theorem C7_counterexample :
    (update_transaction [fracRec] (mkRat 501 2) "Food".data "snack 250.5".data
        (some 300) none).ledger =
      [⟨"t".data, "d".data, "Food".data, 300, "snack 300.5".data⟩] ∧
    pySubWord "250.5".data "300".data "snack 250.5".data = "snack 300".data ∧
    pySubWord "250.5".data "300.0".data "snack 250.5".data = "snack 300.0".data ∧
    "snack 300.5".data ≠ "snack 300".data ∧
    "snack 300.5".data ≠ "snack 300.0".data ∧
    "snack 300.5".data ≠ "snack 250.5".data := by decide

/-! Lemmas about the edit heuristic. -/

/-- C5 (corrected, amended). A reply to a tracked message is treated as
an amount edit exactly when the extracted amount is truthy — found and
nonzero — and the text with numeric tokens removed and stripped is
shorter than 15 characters; it is a category edit exactly when the
classified category is not the fallback and differs from the stored
category; and the spec's three examples behave as stated: `300` updates
only the amount (rewriting the note), `uber` only the category, and
`uber 300` both. -/
theorem C5_edit_heuristic :
    (∀ t : List Char, amountEditFlag t = true ↔
       ((∃ a, extract_amount t = some a ∧ a ≠ 0) ∧
        (pyStrip (removeNumberTokens t)).length < 15)) ∧
    (∀ t c : List Char, categoryEditFlag t c = true ↔
       (detect_category t ≠ "Other".data ∧ detect_category t ≠ c)) ∧
    (handle_message idOrd editState (editMsg "300")).1.ledger =
      [⟨"t".data, "d".data, "Food".data, 300, "lunch 300".data⟩] ∧
    (handle_message idOrd editState (editMsg "uber")).1.ledger =
      [⟨"t".data, "d".data, "Transport".data, 250, "lunch 250".data⟩] ∧
    (handle_message idOrd editState (editMsg "uber 300")).1.ledger =
      [⟨"t".data, "d".data, "Transport".data, 300, "lunch 300".data⟩] := by
  refine ⟨?_, ?_, by decide, by decide, by decide⟩
  · intro t
    unfold amountEditFlag
    cases he : extract_amount t with
    | none => simp [he]
    | some q => simp [he]
  · intro t c
    unfold categoryEditFlag
    simp [bne_iff_ne]

/-- Witness for C5: the amount-edit characterisation instantiated at the
reply `300`. -/
theorem C5_edit_heuristic_witness : amountEditFlag "300".data = true :=
  (C5_edit_heuristic.1 "300".data).mpr ⟨⟨300, by decide, by decide⟩, by decide⟩

/-- Counterexample to C5 as stated: replying `0` to the tracked record —
a number is found (0.0) and the digit-stripped text is empty, so the
claim's condition holds — is not treated as an amount edit, because the
code tests Python truthiness of the extracted amount and `0.0` is falsy;
the reply falls through to the new-expense flow, appending a fresh row
and updating nothing. -/
theorem C5_counterexample :
    extract_amount "0".data = some 0 ∧
    (pyStrip (removeNumberTokens "0".data)).length < 15 ∧
    amountEditFlag "0".data = false ∧
    countUpdate (handle_message idOrd editState (editMsg "0")).2 = 0 ∧
    countAppend (handle_message idOrd editState (editMsg "0")).2 = 1 := by decide

/-! Lemmas about the dedup cache bound. -/

lemma afterDedup_pending {ord : List Nat → List Nat} (s : BotState) (m : Msg) :
    (afterDedup ord s m).pendingDeleteall = s.pendingDeleteall := rfl

lemma newExpense_processed (s : BotState) (m : Msg) :
    (newExpense s m).1.processed = s.processed := by
  unfold newExpense
  cases extract_amount m.text <;> rfl

lemma applyEdit_processed (s : BotState) (ut : UTOut) :
    (applyEdit s ut).1.processed = s.processed := by
  unfold applyEdit
  split <;> rfl

lemma editOrNew_processed (s : BotState) (m : Msg) (d : TxnData) :
    (editOrNew s m d).1.processed = s.processed := by
  unfold editOrNew
  split
  · exact applyEdit_processed s _
  · exact newExpense_processed s m

lemma applyDelete_processed (s : BotState) (rid : Nat) (d : TxnData) (fd : FDOut) :
    (applyDelete s rid d fd).1.processed = s.processed := by
  unfold applyDelete
  split <;> rfl

lemma deleteReply_processed (s : BotState) (m : Msg) (rid : Nat) :
    (deleteReply s m rid).1.processed = s.processed := by
  unfold deleteReply
  split
  · rfl
  · exact applyDelete_processed s rid _ _

lemma replyCheck_processed (s : BotState) (m : Msg) :
    (replyCheck s m).1.processed = s.processed := by
  unfold replyCheck
  cases m.replyTo with
  | none => exact newExpense_processed s m
  | some rid =>
    dsimp only
    by_cases hd : isSubstr "delete".data (pyLower m.text) = true
    · rw [if_pos hd]
      exact deleteReply_processed s m rid
    · rw [if_neg hd]
      cases hl : lookupTxn s.txns rid with
      | none =>
        simp only [hl]
        exact newExpense_processed s m
      | some d =>
        simp only [hl]
        exact editOrNew_processed s m d

lemma gateCheck_processed (s : BotState) (m : Msg) :
    (gateCheck s m).1.processed = s.processed := by
  unfold gateCheck
  split
  · split <;> rfl
  · exact replyCheck_processed s m

/-- C6 (corrected, amended). The dedup set is kept at capacity 100:
when its size exceeds 100 the code truncates it, in one batch, to the
last 100 elements of the set's iteration order — for every materialised
order that is a permutation of the contents, the result has exactly 100
elements and is a subset of the recorded identifiers, so exactly
`size - 100` identifiers are evicted (one per message in the normal
flow, not 50), while *which* identifiers survive is left to CPython's
unspecified hash order; at or below 100 nothing is evicted; and
processing any message preserves the 100-element bound whatever the
order. -/
theorem C6_dedup_eviction :
    (∀ (ord : List Nat → List Nat) (l : List Nat), (∀ xs, List.Perm (ord xs) xs) →
       l.length > 100 →
       (evictProcessed ord l).length = 100 ∧
       (∀ x ∈ evictProcessed ord l, x ∈ l)) ∧
    (∀ (ord : List Nat → List Nat) (l : List Nat), l.length ≤ 100 →
       evictProcessed ord l = l) ∧
    (∀ (ord : List Nat → List Nat) (s : BotState) (m : Msg), s.processed.length ≤ 100 →
       (handle_message ord s m).1.processed.length ≤ 100) := by
  refine ⟨?_, ?_, ?_⟩
  · intro ord l hperm hl
    have hlen : (ord l).length = l.length := (hperm l).length_eq
    constructor
    · unfold evictProcessed
      rw [if_pos hl, List.length_drop]
      omega
    · intro x hx
      unfold evictProcessed at hx
      rw [if_pos hl] at hx
      exact ((hperm l).mem_iff).mp (List.mem_of_mem_drop hx)
  · intro ord l hl
    unfold evictProcessed
    rw [if_neg (by omega)]
  · intro ord s m h
    unfold handle_message
    split
    · exact h
    · rw [gateCheck_processed]
      show (evictProcessed ord (s.processed ++ [m.msgId])).length ≤ 100
      unfold evictProcessed
      split
      · rw [List.length_drop]
        omega
      · rename_i hlen
        rw [List.length_append] at hlen ⊢
        omega

/-- Witness for C6: the one-batch truncation clause instantiated at a
101-element list under the order CPython exhibits for ids 0..100. -/
theorem C6_dedup_eviction_witness :
    (evictProcessed idOrd (List.range 101)).length = 100 ∧
    (∀ x ∈ evictProcessed idOrd (List.range 101), x ∈ List.range 101) :=
  C6_dedup_eviction.1 idOrd (List.range 101) (fun xs => List.Perm.refl xs) (by decide)

/-- Counterexample to C6 as stated: for ids 0..100, built in increasing
order, CPython's set iterates in that same increasing order (integers
hash to themselves), realised by `idOrd`; at size 101 the code then
keeps the last 100 identifiers and evicts one — not the oldest 50,
which would leave 51. -/
theorem C6_counterexample :
    (List.range 101).length > 100 ∧
    (evictProcessed idOrd (List.range 101)).length = 100 ∧
    (evictProcessed idOrd (List.range 101)).length ≠ 51 := by decide

/-! Lemmas about substring containment and the `/delete` error replies. -/

lemma startsWith_self_append : ∀ (p q : List Char), startsWith p (p ++ q) = true
  | [], _ => rfl
  | a :: p, q => by
    simp only [List.cons_append, startsWith, beq_self_eq_true, Bool.true_and]
    exact startsWith_self_append p q

lemma isSubstr_append_mid : ∀ (pre p post : List Char), isSubstr p (pre ++ (p ++ post)) = true
  | [], p, post => by
    rw [List.nil_append]
    cases h : p ++ post with
    | nil =>
      have hp : p = [] := by
        cases p with
        | nil => rfl
        | cons a l => simp at h
      subst hp
      rfl
    | cons c rest =>
      show (startsWith p (c :: rest) || isSubstr p rest) = true
      rw [← h, startsWith_self_append]
      rfl
  | x :: pre, p, post => by
    rw [List.cons_append]
    show (startsWith p (x :: (pre ++ (p ++ post))) || isSubstr p (pre ++ (p ++ post))) = true
    rw [isSubstr_append_mid pre p post]
    simp

lemma range_restated (n : Int) (N : Nat) :
    isSubstr ("between 1 and ".data ++ natLit N) (invalidRangeMsg n N) = true := by
  have hsplit : "\n\nPlease choose a number between 1 and ".data =
      "\n\nPlease choose a number ".data ++ "between 1 and ".data := by decide
  unfold invalidRangeMsg
  rw [hsplit]
  have h := isSubstr_append_mid
    ("‚ùå Invalid transaction number: ".data ++ (intLitZ n ++ "\n\nPlease choose a number ".data))
    ("between 1 and ".data ++ natLit N)
    ".\nUse `/recent` to see your transactions.".data
  simpa only [List.append_assoc] using h

/-- C9 (corrected, amended). Every invalid `/delete` argument only
replies and deletes nothing, and the state is untouched; an out-of-range
number is reported with the valid range `between 1 and N` restated
(where `N` is the size of the recent-transaction window), while an
argument `int()` rejects — underscore-separated digit runs such as
`1_0` are accepted, hence not invalid — is answered with the usage
reminder, whose text does not restate the range. -/
theorem C9_delete_errors :
    (∀ (s : BotState) (a : List Char) (rest : List (List Char)), pyParseInt a = none →
       delete_command s (a :: rest) = (s, [Eff.reply (Reply.msgText invalidFormatMsg)]) ∧
       isSubstr "between 1 and ".data invalidFormatMsg = false) ∧
    (∀ (s : BotState) (a : List Char) (rest : List (List Char)) (n : Int),
       pyParseInt a = some n →
       (n < 1 ∨ ((get_recent_transactions s.ledger 10).length : Int) < n) →
       delete_command s (a :: rest) =
         (s, [Eff.reply (Reply.msgText
            (invalidRangeMsg n (get_recent_transactions s.ledger 10).length))]) ∧
       isSubstr ("between 1 and ".data ++ natLit (get_recent_transactions s.ledger 10).length)
         (invalidRangeMsg n (get_recent_transactions s.ledger 10).length) = true) := by
  constructor
  · intro s a rest hp
    refine ⟨?_, by decide⟩
    unfold delete_command
    dsimp only
    rw [hp]
  · intro s a rest n hp hout
    refine ⟨?_, range_restated n _⟩
    unfold delete_command
    dsimp only
    rw [hp]
    dsimp only
    split
    · rfl
    · rename_i hfalse
      exfalso
      apply hfalse
      simp only [Bool.or_eq_true, decide_eq_true_eq]
      rcases hout with h | h
      · exact Or.inl h
      · exact Or.inr h

/-- Witness for C9: the out-of-range clause instantiated at `/delete 7`
over the three-row ledger. -/
theorem C9_delete_errors_witness :
    delete_command delState ["7".data] =
      (delState, [Eff.reply (Reply.msgText
        (invalidRangeMsg 7 (get_recent_transactions delState.ledger 10).length))]) :=
  (C9_delete_errors.2 delState "7".data [] 7 (by decide) (Or.inr (by decide))).1

/-- Counterexample to C9 as stated: the non-numeric argument `abc` is
answered with the fixed usage message, which does not restate the valid
range `between 1 and 3` even though three transactions are listed; the
claim requires the range for non-numeric arguments too. -/
theorem C9_counterexample :
    delete_command delState ["abc".data] =
      (delState, [Eff.reply (Reply.msgText invalidFormatMsg)]) ∧
    isSubstr "between 1 and ".data invalidFormatMsg = false ∧
    (get_recent_transactions delState.ledger 10).length = 3 := by decide

/-! Effect-counting and branch lemmas for the orchestrator. -/

lemma countBulk_append (a b : List Eff) : countBulk (a ++ b) = countBulk a + countBulk b := by
  simp [countBulk, List.filter_append]

lemma countAppend_append (a b : List Eff) : countAppend (a ++ b) = countAppend a + countAppend b := by
  simp [countAppend, List.filter_append]

lemma countUpdate_append (a b : List Eff) : countUpdate (a ++ b) = countUpdate a + countUpdate b := by
  simp [countUpdate, List.filter_append]

lemma fd_effs (l : List Rec) (a : ℚ) (c n : List Char) :
    (find_and_delete_transaction l a c n).effs = [] ∨
      ∃ i, (find_and_delete_transaction l a c n).effs = [Eff.deleteRow (i + 2)] := by
  unfold find_and_delete_transaction
  cases lastMatch l a c n with
  | none => exact Or.inl rfl
  | some p =>
    obtain ⟨i, r⟩ := p
    exact Or.inr ⟨i, rfl⟩

lemma countBulk_fd (l : List Rec) (a : ℚ) (c n : List Char) :
    countBulk (find_and_delete_transaction l a c n).effs = 0 := by
  rcases fd_effs l a c n with h | ⟨i, h⟩ <;> rw [h] <;> rfl

lemma countAppend_fd (l : List Rec) (a : ℚ) (c n : List Char) :
    countAppend (find_and_delete_transaction l a c n).effs = 0 := by
  rcases fd_effs l a c n with h | ⟨i, h⟩ <;> rw [h] <;> rfl

lemma countUpdate_fd (l : List Rec) (a : ℚ) (c n : List Char) :
    countUpdate (find_and_delete_transaction l a c n).effs = 0 := by
  rcases fd_effs l a c n with h | ⟨i, h⟩ <;> rw [h] <;> rfl

lemma countBulk_ite (c : Prop) [Decidable c] (x y : List Eff) :
    countBulk (if c then x else y) = if c then countBulk x else countBulk y := by
  split <;> rfl

lemma countAppend_ite (c : Prop) [Decidable c] (x y : List Eff) :
    countAppend (if c then x else y) = if c then countAppend x else countAppend y := by
  split <;> rfl

lemma countBulk_update (l : List Rec) (a : ℚ) (c msg : List Char)
    (na : Option ℚ) (nc : Option (List Char)) :
    countBulk (update_transaction l a c msg na nc).effs = 0 := by
  unfold update_transaction
  cases hlm : lastMatch l a c msg with
  | none => rfl
  | some p =>
    obtain ⟨i, row⟩ := p
    dsimp only
    split
    · rfl
    · rw [countBulk_append, countBulk_append]
      rw [countBulk_ite, countBulk_ite, countBulk_ite]
      simp [countBulk, isBulkDeleteEff]

lemma countAppend_update (l : List Rec) (a : ℚ) (c msg : List Char)
    (na : Option ℚ) (nc : Option (List Char)) :
    countAppend (update_transaction l a c msg na nc).effs = 0 := by
  unfold update_transaction
  cases hlm : lastMatch l a c msg with
  | none => rfl
  | some p =>
    obtain ⟨i, row⟩ := p
    dsimp only
    split
    · rfl
    · rw [countAppend_append, countAppend_append]
      rw [countAppend_ite, countAppend_ite, countAppend_ite]
      simp [countAppend, isAppendEff]

lemma countBulk_newExpense (s : BotState) (m : Msg) : countBulk (newExpense s m).2 = 0 := by
  unfold newExpense
  cases extract_amount m.text <;> rfl

lemma countUpdate_newExpense (s : BotState) (m : Msg) : countUpdate (newExpense s m).2 = 0 := by
  unfold newExpense
  cases extract_amount m.text <;> rfl

lemma countBulk_applyEdit (s : BotState) (ut : UTOut) (h : countBulk ut.effs = 0) :
    countBulk (applyEdit s ut).2 = 0 := by
  unfold applyEdit
  split <;> (rw [countBulk_append, h] ; rfl)

lemma countBulk_editOrNew (s : BotState) (m : Msg) (d : TxnData) :
    countBulk (editOrNew s m d).2 = 0 := by
  unfold editOrNew
  split
  · exact countBulk_applyEdit s _ (countBulk_update ..)
  · exact countBulk_newExpense s m

lemma countBulk_applyDelete (s : BotState) (rid : Nat) (d : TxnData)
    (fd : FDOut) (h : countBulk fd.effs = 0) :
    countBulk (applyDelete s rid d fd).2 = 0 := by
  unfold applyDelete
  split <;> (rw [countBulk_append, h] ; rfl)

lemma countBulk_deleteReply (s : BotState) (m : Msg) (rid : Nat) :
    countBulk (deleteReply s m rid).2 = 0 := by
  unfold deleteReply
  cases hl : lookupTxn s.txns rid with
  | none => simp only [hl]; rfl
  | some d =>
    simp only [hl]
    exact countBulk_applyDelete s rid d _ (countBulk_fd ..)

lemma countUpdate_applyDelete (s : BotState) (rid : Nat) (d : TxnData)
    (fd : FDOut) (h : countUpdate fd.effs = 0) :
    countUpdate (applyDelete s rid d fd).2 = 0 := by
  unfold applyDelete
  split <;> (rw [countUpdate_append, h] ; rfl)

lemma countUpdate_deleteReply (s : BotState) (m : Msg) (rid : Nat) :
    countUpdate (deleteReply s m rid).2 = 0 := by
  unfold deleteReply
  cases hl : lookupTxn s.txns rid with
  | none => simp only [hl]; rfl
  | some d =>
    simp only [hl]
    exact countUpdate_applyDelete s rid d _ (countUpdate_fd ..)

lemma countBulk_replyCheck (s : BotState) (m : Msg) :
    countBulk (replyCheck s m).2 = 0 := by
  unfold replyCheck
  cases m.replyTo with
  | none => exact countBulk_newExpense s m
  | some rid =>
    dsimp only
    by_cases hd : isSubstr "delete".data (pyLower m.text) = true
    · rw [if_pos hd]
      exact countBulk_deleteReply s m rid
    · rw [if_neg hd]
      cases hl : lookupTxn s.txns rid with
      | none =>
        simp only [hl]
        exact countBulk_newExpense s m
      | some d =>
        simp only [hl]
        exact countBulk_editOrNew s m d

lemma handle_message_fresh {ord : List Nat → List Nat} {s : BotState} {m : Msg}
    (h : containsId s.processed m.msgId = false) :
    handle_message ord s m = gateCheck (afterDedup ord s m) m := by
  unfold handle_message
  rw [if_neg (by simp [h])]

lemma gateCheck_idle {s : BotState} (m : Msg) (h : s.pendingDeleteall = false) :
    gateCheck s m = replyCheck s m := by
  unfold gateCheck
  rw [if_neg (by simp [h])]

lemma countBulk_handle_idle {ord : List Nat → List Nat} {s : BotState} (m : Msg)
    (h : s.pendingDeleteall = false) :
    countBulk (handle_message ord s m).2 = 0 := by
  cases hc : containsId s.processed m.msgId with
  | true =>
    unfold handle_message
    rw [if_pos hc]
    rfl
  | false =>
    rw [handle_message_fresh hc, gateCheck_idle m ((afterDedup_pending s m).trans h)]
    exact countBulk_replyCheck _ m

lemma countBulk_deleteall_command (s : BotState) :
    countBulk (deleteall_command s).2 = 0 := by
  unfold deleteall_command
  split <;> rfl

lemma delete_by_row_effs {l : List Rec} {rn : Nat} {l2 : List Rec} {effs : List Eff}
    (h : delete_transaction_by_row l rn = some (l2, effs)) : effs = [Eff.deleteRow rn] := by
  unfold delete_transaction_by_row at h
  split at h
  · exact absurd h (by simp)
  · split at h
    · simp only [Option.some.injEq, Prod.mk.injEq] at h
      exact h.2.symm
    · exact absurd h (by simp)

lemma countBulk_delete_command (s : BotState) (args : List (List Char)) :
    countBulk (delete_command s args).2 = 0 := by
  unfold delete_command
  cases args with
  | nil => rfl
  | cons a rest =>
    dsimp only
    cases hp : pyParseInt a with
    | none => simp only [hp]; rfl
    | some n =>
      simp only [hp]
      split
      · rfl
      · cases hg : (get_recent_transactions s.ledger 10)[n.toNat - 1]? with
        | none => simp only [hg]; rfl
        | some pr =>
          obtain ⟨rn, r⟩ := pr
          simp only [hg]
          cases hdel : delete_transaction_by_row s.ledger rn with
          | none => simp only [hdel]; rfl
          | some p2 =>
            obtain ⟨l2, effs⟩ := p2
            simp only [hdel]
            rw [delete_by_row_effs hdel]
            rfl

lemma replyCheck_none {s : BotState} {m : Msg} (h : m.replyTo = none) :
    replyCheck s m = newExpense s m := by
  unfold replyCheck
  rw [h]

lemma countAppend_newExpense_some {s : BotState} {m : Msg} {a : ℚ}
    (h : extract_amount m.text = some a) : countAppend (newExpense s m).2 = 1 := by
  unfold newExpense
  rw [h]
  rfl

lemma evictProcessed_eq_of_le (ord : List Nat → List Nat) {l : List Nat}
    (h : l.length ≤ 100) : evictProcessed ord l = l := by
  unfold evictProcessed
  rw [if_neg (by omega)]

lemma containsId_append_self (l : List Nat) (x : Nat) :
    containsId (l ++ [x]) x = true := by
  unfold containsId
  rw [List.any_eq_true]
  exact ⟨x, List.mem_append.mpr (Or.inr (by simp)), by simp⟩

lemma run_pair (ord : List Nat → List Nat) (s : BotState) (i1 i2 : Inbound) :
    run ord s [i1, i2] = ((step ord (step ord s i1).1 i2).1,
      (step ord s i1).2 ++ ((step ord (step ord s i1).1 i2).2 ++ [])) := rfl

lemma gateCheck_confirm {s : BotState} {m : Msg} (hp : s.pendingDeleteall = true)
    (hc : isConfirm m.text = true) (hl : ¬ s.ledger.length = 0) :
    gateCheck s m = ({ s with pendingDeleteall := false, ledger := [] },
      [Eff.deleteRowsRange 2 (s.ledger.length + 1),
       Eff.reply (Reply.deleteAllDone s.ledger.length)]) := by
  unfold gateCheck
  rw [if_pos hp, if_pos hc]
  unfold delete_all_transactions
  rw [if_neg hl]
  rfl

lemma gateCheck_cancel {s : BotState} {m : Msg} (hp : s.pendingDeleteall = true)
    (hc : isConfirm m.text = false) :
    gateCheck s m = ({ s with pendingDeleteall := false },
      [Eff.reply Reply.deleteAllCancelled]) := by
  unfold gateCheck
  rw [if_pos hp, if_neg (by simp [hc])]

/-- C1 (corrected, amended). Confirmation Gate over a nonempty ledger
and fresh message ids: `[deleteall, confirmation phrase]` (the phrase
matched case-insensitively after stripping) executes the bulk delete
exactly once, empties the ledger and returns the gate to Idle;
`[deleteall, any other message]` executes zero bulk deletes, leaves the
ledger intact and returns the gate to Idle; while the gate is Idle no
message ever triggers a bulk delete (in particular an unsolicited
confirmation phrase); and a bulk delete can only arise as the side
effect of the pending-to-Idle confirmation transition. (Over an empty
ledger `deleteall` never arms the gate — the correction to the
claim.) -/
theorem C1_confirmation_gate :
    (∀ (ord : List Nat → List Nat) (s : BotState) (m : Msg),
       s.pendingDeleteall = false → s.ledger ≠ [] →
       containsId s.processed m.msgId = false → isConfirm m.text = true →
       countBulk (run ord s [.deleteallCmd, .textMsg m]).2 = 1 ∧
       (run ord s [.deleteallCmd, .textMsg m]).1.pendingDeleteall = false ∧
       (run ord s [.deleteallCmd, .textMsg m]).1.ledger = []) ∧
    (∀ (ord : List Nat → List Nat) (s : BotState) (m : Msg),
       s.pendingDeleteall = false → s.ledger ≠ [] →
       containsId s.processed m.msgId = false → isConfirm m.text = false →
       countBulk (run ord s [.deleteallCmd, .textMsg m]).2 = 0 ∧
       (run ord s [.deleteallCmd, .textMsg m]).1.pendingDeleteall = false ∧
       (run ord s [.deleteallCmd, .textMsg m]).1.ledger = s.ledger) ∧
    (∀ (ord : List Nat → List Nat) (s : BotState) (m : Msg), s.pendingDeleteall = false →
       countBulk (handle_message ord s m).2 = 0) ∧
    (∀ (ord : List Nat → List Nat) (s : BotState) (i : Inbound),
       0 < countBulk (step ord s i).2 →
       ∃ m, i = .textMsg m ∧ s.pendingDeleteall = true ∧
         containsId s.processed m.msgId = false ∧ isConfirm m.text = true ∧
         (step ord s i).1.pendingDeleteall = false) := by
  refine ⟨?_, ?_, fun ord s m h => countBulk_handle_idle m h, ?_⟩
  · intro ord s m hpend hled hfresh hconf
    have hlen : ¬ s.ledger.length = 0 := by simpa [List.length_eq_zero] using hled
    have h1 : deleteall_command s =
        ({ s with pendingDeleteall := true, deleteallCount := s.ledger.length },
         [Eff.reply (Reply.deleteAllWarning s.ledger.length)]) := by
      unfold deleteall_command
      rw [if_neg hlen]
    rw [run_pair]
    simp only [step]
    rw [h1]
    dsimp only
    have hfresh2 : containsId ({ s with pendingDeleteall := true, deleteallCount := s.ledger.length } : BotState).processed m.msgId = false := hfresh
    rw [handle_message_fresh hfresh2]
    have hp2 : (afterDedup ord ({ s with pendingDeleteall := true, deleteallCount := s.ledger.length } : BotState) m).pendingDeleteall = true := rfl
    rw [gateCheck_confirm hp2 hconf hlen]
    exact ⟨rfl, rfl, rfl⟩
  · intro ord s m hpend hled hfresh hconf
    have hlen : ¬ s.ledger.length = 0 := by simpa [List.length_eq_zero] using hled
    have h1 : deleteall_command s =
        ({ s with pendingDeleteall := true, deleteallCount := s.ledger.length },
         [Eff.reply (Reply.deleteAllWarning s.ledger.length)]) := by
      unfold deleteall_command
      rw [if_neg hlen]
    rw [run_pair]
    simp only [step]
    rw [h1]
    dsimp only
    have hfresh2 : containsId ({ s with pendingDeleteall := true, deleteallCount := s.ledger.length } : BotState).processed m.msgId = false := hfresh
    rw [handle_message_fresh hfresh2]
    have hp2 : (afterDedup ord ({ s with pendingDeleteall := true, deleteallCount := s.ledger.length } : BotState) m).pendingDeleteall = true := rfl
    rw [gateCheck_cancel hp2 hconf]
    exact ⟨rfl, rfl, rfl⟩
  · intro ord s i hpos
    cases i with
    | deleteallCmd =>
      rw [show step ord s .deleteallCmd = deleteall_command s from rfl,
        countBulk_deleteall_command] at hpos
      exact absurd hpos (Nat.lt_irrefl 0)
    | deleteCmd args =>
      rw [show step ord s (.deleteCmd args) = delete_command s args from rfl,
        countBulk_delete_command] at hpos
      exact absurd hpos (Nat.lt_irrefl 0)
    | textMsg m =>
      cases hp : s.pendingDeleteall with
      | false =>
        rw [show step ord s (.textMsg m) = handle_message ord s m from rfl,
          countBulk_handle_idle m hp] at hpos
        exact absurd hpos (Nat.lt_irrefl 0)
      | true =>
        cases hc : containsId s.processed m.msgId with
        | true =>
          rw [show step ord s (.textMsg m) = handle_message ord s m from rfl] at hpos
          unfold handle_message at hpos
          rw [if_pos hc] at hpos
          exact absurd hpos (Nat.lt_irrefl 0)
        | false =>
          cases hcf : isConfirm m.text with
          | false =>
            rw [show step ord s (.textMsg m) = handle_message ord s m from rfl,
              handle_message_fresh hc,
              gateCheck_cancel (by rw [afterDedup_pending]; exact hp) hcf] at hpos
            exact absurd hpos (Nat.lt_irrefl 0)
          | true =>
            refine ⟨m, rfl, rfl, hc, hcf, ?_⟩
            show (handle_message ord s m).1.pendingDeleteall = false
            rw [handle_message_fresh hc]
            unfold gateCheck
            rw [if_pos (show (afterDedup ord s m).pendingDeleteall = true from
              by rw [afterDedup_pending]; exact hp)]
            rw [if_pos hcf]

/-- Witness for C1: the confirm and cancel runs over the one-row
ledger, started from Idle with fresh ids. -/
theorem C1_confirmation_gate_witness :
    countBulk (run idOrd gateState [.deleteallCmd, .textMsg confirmMsg]).2 = 1 ∧
    countBulk (run idOrd gateState [.deleteallCmd, .textMsg cancelMsg]).2 = 0 :=
  ⟨(C1_confirmation_gate.1 idOrd gateState confirmMsg rfl (by decide) rfl (by decide)).1,
   (C1_confirmation_gate.2.1 idOrd gateState cancelMsg rfl (by decide) rfl (by decide)).1⟩

/-- Counterexample to C1 as stated: from Idle over an empty ledger,
`deleteall` only reports an empty sheet and never arms the gate, so the
sequence `[deleteall, confirmation phrase]` executes zero bulk deletes
instead of exactly one. -/
theorem C1_counterexample :
    emptyState.pendingDeleteall = false ∧
    countBulk (run idOrd emptyState [.deleteallCmd, .textMsg confirmMsg]).2 = 0 := by decide

/-- C2 (corrected, amended). A message whose identifier is still in the
dedup set is discarded with no state change and no effect at all,
whatever the set's iteration order; and while the cache holds at most
99 identifiers, an expense message followed by an immediate redelivery
of the same identifier yields exactly one ledger append — under that
bound the eviction never fires, so the guarantee is independent of
CPython's hash order. (The guarantee holds only while the identifier
remains recorded: the bounded cache can evict it, and at the boundary
even the just-recorded identifier's survival depends on the hash order
— the correction to the claim.) -/
theorem C2_dedup :
    (∀ (ord : List Nat → List Nat) (s : BotState) (m : Msg),
       containsId s.processed m.msgId = true →
       handle_message ord s m = (s, [])) ∧
    (∀ (ord : List Nat → List Nat) (s : BotState) (m : Msg) (a : ℚ),
       s.processed.length ≤ 99 →
       containsId s.processed m.msgId = false →
       s.pendingDeleteall = false → m.replyTo = none → extract_amount m.text = some a →
       countAppend (run ord s [.textMsg m, .textMsg m]).2 = 1) := by
  constructor
  · intro ord s m h
    unfold handle_message
    rw [if_pos h]
  · intro ord s m a hbound hfresh hpend hreply hamt
    have h1 : handle_message ord s m = newExpense (afterDedup ord s m) m := by
      rw [handle_message_fresh hfresh,
        gateCheck_idle m ((afterDedup_pending s m).trans hpend),
        replyCheck_none hreply]
    have hproc : (afterDedup ord s m).processed = s.processed ++ [m.msgId] := by
      show evictProcessed ord (s.processed ++ [m.msgId]) = _
      exact evictProcessed_eq_of_le ord
        (by rw [List.length_append, List.length_cons, List.length_nil]; omega)
    have hdup : containsId ((newExpense (afterDedup ord s m) m).1).processed m.msgId = true := by
      rw [newExpense_processed, hproc]
      exact containsId_append_self s.processed m.msgId
    have h2 : handle_message ord (newExpense (afterDedup ord s m) m).1 m =
        ((newExpense (afterDedup ord s m) m).1, []) := by
      unfold handle_message
      rw [if_pos hdup]
    rw [run_pair]
    simp only [step]
    rw [h1, h2]
    simp only [List.append_nil]
    exact countAppend_newExpense_some hamt

/-- Witness for C2: the expense message `x 1` delivered twice in a row
appends exactly once. -/
theorem C2_dedup_witness :
    countAppend (run idOrd emptyState [.textMsg dupMsg, .textMsg dupMsg]).2 = 1 :=
  C2_dedup.2 idOrd emptyState dupMsg 1 (by decide) rfl rfl rfl (by decide)

set_option maxRecDepth 10000

/-- Counterexample to C2 as stated: the bounded dedup cache evicts id 0
once 100 fresh identifiers arrive after it — for the dense ids 0..100
CPython's set iterates in increasing order (integers hash to
themselves), realised by `idOrd` — so the 102-message sequence
`[id 0, 100 fillers, id 0]` appends the same expense twice; the 100
digit-free fillers themselves append nothing. -/
theorem C2_counterexample :
    countAppend (run idOrd emptyState dupSeq).2 = 2 ∧
    countAppend (run idOrd emptyState
      ((List.range 100).map (fun i => Inbound.textMsg (fillerMsg i)))).2 = 0 := by decide

lemma fd_found_none_ledger {l : List Rec} {a : ℚ} {c n : List Char}
    (h : (find_and_delete_transaction l a c n).found = none) :
    (find_and_delete_transaction l a c n).ledger = l := by
  unfold find_and_delete_transaction at h ⊢
  cases hlm : lastMatch l a c n with
  | none => rfl
  | some p =>
    obtain ⟨i, r⟩ := p
    rw [hlm] at h
    simp at h

lemma countAppend_applyDelete (s : BotState) (rid : Nat) (d : TxnData)
    (fd : FDOut) (h : countAppend fd.effs = 0) :
    countAppend (applyDelete s rid d fd).2 = 0 := by
  unfold applyDelete
  split <;> (rw [countAppend_append, h] ; rfl)

lemma countAppend_deleteReply (s : BotState) (m : Msg) (rid : Nat) :
    countAppend (deleteReply s m rid).2 = 0 := by
  unfold deleteReply
  cases hl : lookupTxn s.txns rid with
  | none => simp only [hl]; rfl
  | some d =>
    simp only [hl]
    exact countAppend_applyDelete s rid d _ (countAppend_fd ..)

lemma deleteReply_spec (s : BotState) (m : Msg) (rid : Nat) (d : TxnData)
    (hlook : lookupTxn s.txns rid = some d) :
    countUpdate (deleteReply s m rid).2 = 0 ∧
    countAppend (deleteReply s m rid).2 = 0 ∧
    (deleteReply s m rid).1.ledger =
      (find_and_delete_transaction s.ledger d.amount d.category d.message).ledger ∧
    (∀ r, (find_and_delete_transaction s.ledger d.amount d.category d.message).found = some r →
       (deleteReply s m rid).1.txns = removeTxn s.txns rid) ∧
    ((find_and_delete_transaction s.ledger d.amount d.category d.message).found = none →
       (deleteReply s m rid).1.txns = s.txns) := by
  have hd : deleteReply s m rid =
      applyDelete s rid d (find_and_delete_transaction s.ledger d.amount d.category d.message) := by
    unfold deleteReply
    rw [hlook]
  refine ⟨countUpdate_deleteReply s m rid, countAppend_deleteReply s m rid, ?_, ?_, ?_⟩
  · rw [hd]
    unfold applyDelete
    cases hf : (find_and_delete_transaction s.ledger d.amount d.category d.message).found with
    | some r0 => simp only [hf]
    | none =>
      simp only [hf]
      exact (fd_found_none_ledger hf).symm
  · intro r hr
    rw [hd]
    unfold applyDelete
    rw [hr]
  · intro hr
    rw [hd]
    unfold applyDelete
    rw [hr]

/-- C10 (confirmed). A reply to a tracked message whose text contains
the substring `delete` (case-insensitively) always takes the
content-based delete branch: no cell update and no append is ever
produced, the ledger becomes whatever the matcher leaves, and the index
entry for the replied-to id is removed exactly on matcher success; the
edit heuristic (the only source of cell updates) is reachable only for
replies that do not contain `delete`. -/
theorem C10_delete_precedence :
    (∀ (ord : List Nat → List Nat) (s : BotState) (m : Msg) (rid : Nat) (d : TxnData),
       containsId s.processed m.msgId = false → s.pendingDeleteall = false →
       m.replyTo = some rid → isSubstr "delete".data (pyLower m.text) = true →
       lookupTxn s.txns rid = some d →
       countUpdate (handle_message ord s m).2 = 0 ∧
       countAppend (handle_message ord s m).2 = 0 ∧
       (handle_message ord s m).1.ledger =
         (find_and_delete_transaction s.ledger d.amount d.category d.message).ledger ∧
       (∀ r, (find_and_delete_transaction s.ledger d.amount d.category d.message).found =
          some r → (handle_message ord s m).1.txns = removeTxn s.txns rid) ∧
       ((find_and_delete_transaction s.ledger d.amount d.category d.message).found = none →
          (handle_message ord s m).1.txns = s.txns)) ∧
    (∀ (ord : List Nat → List Nat) (s : BotState) (m : Msg),
       containsId s.processed m.msgId = false →
       s.pendingDeleteall = false → 0 < countUpdate (handle_message ord s m).2 →
       ∃ rid, m.replyTo = some rid ∧ isSubstr "delete".data (pyLower m.text) = false) := by
  constructor
  · intro ord s m rid d hfresh hidle hreply hdel hlook
    have hmsg : handle_message ord s m = deleteReply (afterDedup ord s m) m rid := by
      rw [handle_message_fresh hfresh,
        gateCheck_idle m ((afterDedup_pending s m).trans hidle)]
      unfold replyCheck
      rw [hreply]
      dsimp only
      rw [if_pos hdel]
    rw [hmsg]
    exact deleteReply_spec (afterDedup ord s m) m rid d hlook
  · intro ord s m hfresh hidle hpos
    rw [handle_message_fresh hfresh,
      gateCheck_idle m ((afterDedup_pending s m).trans hidle)] at hpos
    unfold replyCheck at hpos
    cases hr : m.replyTo with
    | none =>
      rw [hr] at hpos
      dsimp only at hpos
      rw [countUpdate_newExpense] at hpos
      exact absurd hpos (Nat.lt_irrefl 0)
    | some rid =>
      rw [hr] at hpos
      dsimp only at hpos
      cases hdl : isSubstr "delete".data (pyLower m.text) with
      | true =>
        rw [if_pos hdl, countUpdate_deleteReply] at hpos
        exact absurd hpos (Nat.lt_irrefl 0)
      | false =>
        exact ⟨rid, rfl, rfl⟩

/-- Witness for C10: the reply `please delete this` to the tracked
record produces no update and no append. -/
theorem C10_delete_precedence_witness :
    countUpdate (handle_message idOrd editState (editMsg "please delete this")).2 = 0 ∧
    countAppend (handle_message idOrd editState (editMsg "please delete this")).2 = 0 :=
  ⟨(C10_delete_precedence.1 idOrd editState (editMsg "please delete this") 1 editTxn rfl rfl rfl
      (by decide) (by decide)).1,
   (C10_delete_precedence.1 idOrd editState (editMsg "please delete this") 1 editTxn rfl rfl rfl
      (by decide) (by decide)).2.1⟩

end ExpenseBot
